import Mathlib

/-!
Verification of the xenon-fb-conversion repository: a viewer that converts a
captured Xenon (Xbox 360) framebuffer dump from the GPU-native tiled,
swizzled layout into a linear raster image.

The development shallowly embeds the two conversion paths:

* src/main.cpp — a sequential CPU converter (xeFbConvert returning a byte
  offset, ConvertFramebufferCPU) together with a pass-through compute shader;
* src/unnamed/part_001 — a variant whose compute shader performs the whole
  conversion on the GPU (xeFbConvert returning a pixel index, plus a
  nearest-neighbor resampling step computed in floating point).

Modelling conventions, used consistently below:

* C ints are modelled as Nat.  Every value reaching the translated
  arithmetic in the programs is non-negative and far below 2^31, and on
  that range C's /, %, &, <<, >>, ^ agree with the Nat operations used here.
* The expression y & ~31 (clearing the five low bits of a non-negative
  int) is written y / 32 * 32; the remaining masks use Nat's &&&, <<<, ^^^
  verbatim.
* GLSL float arithmetic in the shader (scale factors and the int(...)
  truncation) is idealized as exact rational arithmetic with Nat.floor;
  the claims proved about it concern inputs on which the idealization and
  round-to-nearest float agree.
* Byte buffers are total functions Nat → Nat (offset to byte value), with
  byte-range side conditions (< 256) stated as hypotheses where needed.
  The C++ loop that fills the output vector is modelled by explicit state
  passing: a fold over the loop ranges applying Function.update.
-/

/-- TILE macro, identical in src/main.cpp line 11 and in the compute shader of
src/unnamed/part_001 line 97: TILE(x) = ((x + 31) >> 5) << 5. -/
def TILE (x : Nat) : Nat := ((x + 31) >>> 5) <<< 5

/-- The within-tile offset and swizzle XOR that both xeFbConvert variants
compute, named here once; it is the source subexpression
((x & 3) + ((y & 1) << 2) + ((x & 28) << 1) + ((y & 30) << 5)) ^ ((y & 8) << 2)
appearing verbatim in src/main.cpp lines 237-238 and src/unnamed/part_001
lines 93-94. -/
def swizzle (x y : Nat) : Nat :=
  ((x &&& 3) + ((y &&& 1) <<< 2) + ((x &&& 28) <<< 1) + ((y &&& 30) <<< 5)) ^^^
    ((y &&& 8) <<< 2)

/-- Little-endian 32-bit word read: the reinterpretation of a byte buffer as
an array of uints that happens when main passes the uint8_t dump buffer to
the GPU as a uint[] SSBO (src/unnamed/part_001 lines 268-278) on a
little-endian host. -/
def word32 (fb : Nat → Nat) (i : Nat) : Nat :=
  fb (4 * i) + fb (4 * i + 1) * 2 ^ 8 + fb (4 * i + 2) * 2 ^ 16 + fb (4 * i + 3) * 2 ^ 24

namespace MainCpp

/-- Address translator of src/main.cpp lines 232-241.  Decomposes the linear
byte offset addr into pixel coordinates y = addr / (resWidth*4),
x = addr % (resWidth*4) / 4, computes the tiled pixel index (macro-tile
offset plus swizzled within-tile offset) and multiplies by 4 to return a
byte offset.  The source's (y & ~31) and (x & ~31) clear the five low bits
of a non-negative int and are written y / 32 * 32 and x / 32 * 32. -/
def xeFbConvert (resWidth addr : Nat) : Nat :=
  let y := addr / (resWidth * 4)
  let x := addr % (resWidth * 4) / 4
  ((y / 32 * 32) * resWidth + (x / 32 * 32) * 32 + swizzle x y) * 4

/-- COLOR macro of src/main.cpp lines 139-144: packs b into bits 24-31,
g into 16-23, r into 8-15, a into 0-7. -/
def COLOR (r g b a : Nat) : Nat := b <<< 24 ||| g <<< 16 ||| r <<< 8 ||| a

/-- XE_PIXEL_TO_STD_ADDR macro of src/main.cpp line 243. -/
def XE_PIXEL_TO_STD_ADDR (resWidth x y : Nat) : Nat := (y * resWidth + x) * 4

/-- XE_PIXEL_TO_XE_ADDR macro of src/main.cpp lines 244-245. -/
def XE_PIXEL_TO_XE_ADDR (resWidth x y : Nat) : Nat :=
  xeFbConvert resWidth (XE_PIXEL_TO_STD_ADDR resWidth x y)

/-- ConvertFramebufferCPU of src/main.cpp lines 247-264, as explicit state
passing: the nested for loops over y < resHeight, x < resWidth become folds,
and each iteration's write outputBuffer[stdPixPos / 4] = COLOR(r, g, b, 255)
becomes a Function.update of the output buffer (indexed by uint32 slot).
The bytes read from the tiled framebuffer are b at the translated offset,
r at +1, g at +2, a at +3; a is read but discarded in favor of 255. -/
def ConvertFramebufferCPU (outputBuffer xeFramebuffer : Nat → Nat)
    (resWidth resHeight : Nat) : Nat → Nat :=
  (List.range resHeight).foldl (fun outBuf y =>
    (List.range resWidth).foldl (fun outBuf x =>
      let stdPixPos := XE_PIXEL_TO_STD_ADDR resWidth x y
      let xePixPos := XE_PIXEL_TO_XE_ADDR resWidth x y
      let b := xeFramebuffer xePixPos
      let r := xeFramebuffer (xePixPos + 1)
      let g := xeFramebuffer (xePixPos + 2)
      Function.update outBuf (stdPixPos / 4) (COLOR r g b 255)) outBuf) outputBuffer

/-- Value the CPU converter computes for a single destination pixel (x, y):
the loop body of ConvertFramebufferCPU without the surrounding state. -/
def cpuPixel (xeFramebuffer : Nat → Nat) (resWidth x y : Nat) : Nat :=
  COLOR (xeFramebuffer (XE_PIXEL_TO_XE_ADDR resWidth x y + 1))
    (xeFramebuffer (XE_PIXEL_TO_XE_ADDR resWidth x y + 2))
    (xeFramebuffer (XE_PIXEL_TO_XE_ADDR resWidth x y)) 255

/-- Global resWidth of src/main.cpp line 17. -/
def resWidth : Nat := TILE 1280

/-- Global resHeight of src/main.cpp line 18. -/
def resHeight : Nat := TILE 720

end MainCpp

namespace Part001

/-- Address translator of the compute shader in src/unnamed/part_001 lines
89-95: same decomposition and tile/swizzle arithmetic as the CPU variant but
the result stays a pixel index (no final multiplication by 4).  As above,
(y & ~31) and (x & ~31) are written y / 32 * 32 and x / 32 * 32. -/
def xeFbConvert (width addr : Nat) : Nat :=
  let y := addr / (width * 4)
  let x := addr % (width * 4) / 4
  (y / 32 * 32) * width + (x / 32 * 32) * 32 + swizzle x y

/-- COLOR macro of src/unnamed/part_001 line 181: ARGB packing,
a in bits 24-31, r in 16-23, g in 8-15, b in 0-7. -/
def COLOR (r g b a : Nat) : Nat := a <<< 24 ||| r <<< 16 ||| g <<< 8 ||| b

/-- Scale factor scaleX = tiledWidth / float(resWidth) of src/unnamed/part_001
line 110, with tiledWidth = TILE(internalWidth) (line 106); the float
division is idealized as exact rational division. -/
def scaleX (internalWidth resWidth : Nat) : ℚ := (TILE internalWidth : ℚ) / (resWidth : ℚ)

/-- Scale factor scaleY = tiledHeight / float(resHeight) of
src/unnamed/part_001 line 111, with tiledHeight = TILE(internalHeight). -/
def scaleY (internalHeight resHeight : Nat) : ℚ := (TILE internalHeight : ℚ) / (resHeight : ℚ)

/-- Resampling map of src/unnamed/part_001 lines 106-115: srcX =
int(float(texelX) * scaleX), srcY = int(float(texelY) * scaleY); the float
multiply and the truncating int(...) conversion of the non-negative product
are idealized as exact rational multiplication followed by Nat.floor. -/
def mapToSource (internalWidth internalHeight resWidth resHeight texelX texelY : Nat) :
    Nat × Nat :=
  (⌊(texelX : ℚ) * scaleX internalWidth resWidth⌋₊,
   ⌊(texelY : ℚ) * scaleY internalHeight resHeight⌋₊)

/-- Body of the compute shader main of src/unnamed/part_001 lines 99-123 for
one invocation at texel (texelX, texelY): the out-of-bounds check returns
without writing (modelled as none); otherwise the texel is resampled to the
source resolution, the flattened source index is translated through
xeFbConvert, and the packed 32-bit value fetched from the pixel buffer is
stored to the output texel (modelled as some value). -/
def shaderMain (pixel_data : Nat → Nat)
    (internalWidth internalHeight resWidth resHeight texelX texelY : Nat) : Option Nat :=
  if texelX ≥ resWidth ∨ texelY ≥ resHeight then none
  else
    let src := mapToSource internalWidth internalHeight resWidth resHeight texelX texelY
    let tiledWidth := TILE internalWidth
    let stdIndex := src.2 * tiledWidth + src.1
    let xeIndex := xeFbConvert tiledWidth (stdIndex * 4)
    some (pixel_data xeIndex)

/-- Effect of one shader invocation on the output image: imageStore writes
the fetched value at the texel position; an invocation that exited at the
bounds check leaves the image untouched. -/
def storeTexel (image : Nat × Nat → Nat) (pos : Nat × Nat) (v : Option Nat) :
    Nat × Nat → Nat :=
  match v with
  | none => image
  | some w => Function.update image pos w

/-- Global internalWidth of src/unnamed/part_001 line 19. -/
def internalWidth : Nat := 1280

/-- Global internalHeight of src/unnamed/part_001 line 20. -/
def internalHeight : Nat := 720

/-- Global resWidth of src/unnamed/part_001 line 17. -/
def resWidth : Nat := TILE 1280

/-- Global resHeight of src/unnamed/part_001 line 18. -/
def resHeight : Nat := TILE 720

end Part001

/-- The documented channel-order difference between the two converters
(spec section 9): the GPU kernel copies the packed 32-bit word verbatim
(bytes, low to high: B, R, G, A as laid out in the tiled dump), while the
CPU path repacks those bytes with its COLOR macro, moving B to the top
byte, keeping R and G in place, and substituting the constant 255 for the
alpha byte.  Applied to a GPU output word this yields the corresponding CPU
output word. -/
def reorderChannels (w : Nat) : Nat :=
  w % 256 * 2 ^ 24 + w / 256 % 2 ^ 16 * 2 ^ 8 + 255

/-- Inverse of the within-tile swizzle: recovers (x % 32, y % 32) from
swizzle's value.  Bit 8 of the value is bit 3 of y (untouched by the XOR),
which lets the XOR of bit 5 be undone; the remaining bit fields are then
read back directly.  Proof apparatus for the bijection claim, not source. -/
def swizzleInv (v : Nat) : Nat × Nat :=
  let w := v ^^^ (v / 256 % 2 * 8 <<< 2)
  (w % 4 + w / 8 % 8 * 4, w / 4 % 2 + w / 64 % 16 * 2)

/-- Proof apparatus for the bijection claim: the inverse of the tiled-index
map for a padded width of 32 * a, recovering the linear pixel index from a
tiled pixel index. -/
def tileInvIndex (a v : Nat) : Nat :=
  (32 * (v / (1024 * a)) + (swizzleInv (v % 1024)).2) * (32 * a) +
    (32 * (v / 1024 % a) + (swizzleInv (v % 1024)).1)

theorem TILE_eq (n : Nat) : TILE n = (n + 31) / 32 * 32 := by
  simp [TILE, Nat.shiftLeft_eq, Nat.shiftRight_eq_div_pow]

theorem land_small_mod (c x : Nat) (hc : c < 32) : x &&& c = x % 32 &&& c := by
  apply Nat.eq_of_testBit_eq
  intro i
  rw [Nat.testBit_land, Nat.testBit_land, show (32 : Nat) = 2 ^ 5 from rfl,
    Nat.testBit_mod_two_pow]
  by_cases h : i < 5
  · simp [h]
  · have hc5 : c.testBit i = false := by
      apply Nat.testBit_lt_two_pow
      calc c < 2 ^ 5 := hc
        _ ≤ 2 ^ i := Nat.pow_le_pow_right (by norm_num) (by omega)
    simp [h, hc5]

theorem swizzle_mod (x y : Nat) : swizzle x y = swizzle (x % 32) (y % 32) := by
  unfold swizzle
  rw [land_small_mod 3 x (by norm_num), land_small_mod 28 x (by norm_num),
    land_small_mod 1 y (by norm_num), land_small_mod 30 y (by norm_num),
    land_small_mod 8 y (by norm_num)]

theorem swizzle_lt : ∀ a, a < 32 → ∀ b, b < 32 → swizzle a b < 1024 := by decide

set_option maxRecDepth 4000 in
theorem swizzleInv_swizzle : ∀ a, a < 32 → ∀ b, b < 32 →
    swizzleInv (swizzle a b) = (a, b) := by decide

set_option maxRecDepth 4000 in
theorem swizzle_swizzleInv : ∀ v, v < 1024 →
    swizzle (swizzleInv v).1 (swizzleInv v).2 = v ∧
      (swizzleInv v).1 < 32 ∧ (swizzleInv v).2 < 32 := by decide

theorem xeFbConvert_cpu_eq_four_mul (w a : Nat) :
    MainCpp.xeFbConvert w a = 4 * Part001.xeFbConvert w a := by
  simp only [MainCpp.xeFbConvert, Part001.xeFbConvert]
  ring

theorem xeFbConvert_decomp (a x y : Nat) (hx : x < 32 * a) :
    Part001.xeFbConvert (32 * a) ((y * (32 * a) + x) * 4) =
      1024 * a * (y / 32) + 1024 * (x / 32) + swizzle (x % 32) (y % 32) := by
  have hW4 : 0 < 32 * a * 4 := by omega
  have h1 : (y * (32 * a) + x) * 4 = x * 4 + 32 * a * 4 * y := by ring
  have hy : (y * (32 * a) + x) * 4 / (32 * a * 4) = y := by
    rw [h1, Nat.add_mul_div_left _ _ hW4, Nat.div_eq_of_lt (by omega), Nat.zero_add]
  have hx2 : (y * (32 * a) + x) * 4 % (32 * a * 4) / 4 = x := by
    rw [h1, Nat.add_mul_mod_self_left, Nat.mod_eq_of_lt (by omega),
      Nat.mul_div_cancel _ (by norm_num)]
  simp only [Part001.xeFbConvert, hy, hx2]
  rw [swizzle_mod x y]
  ring

theorem xeFbConvert_pixel (a i : Nat) (ha : 0 < a) :
    Part001.xeFbConvert (32 * a) (i * 4) =
      1024 * a * (i / (32 * a) / 32) + 1024 * (i % (32 * a) / 32) +
        swizzle (i % (32 * a) % 32) (i / (32 * a) % 32) := by
  have hW : 0 < 32 * a := by omega
  conv_lhs => rw [show i = i / (32 * a) * (32 * a) + i % (32 * a) by
    rw [Nat.mul_comm]
    exact (Nat.div_add_mod i (32 * a)).symm]
  exact xeFbConvert_decomp a _ _ (Nat.mod_lt _ hW)

theorem tileInv_left (a i : Nat) (ha : 0 < a) :
    tileInvIndex a (Part001.xeFbConvert (32 * a) (i * 4)) = i := by
  have hW : 0 < 32 * a := by omega
  rw [xeFbConvert_pixel a i ha]
  set y := i / (32 * a) with hy
  set x := i % (32 * a) with hx
  have hxW : x < 32 * a := Nat.mod_lt _ hW
  have hxt : x / 32 < a := (Nat.div_lt_iff_lt_mul (by norm_num)).2 (by omega)
  have hs : swizzle (x % 32) (y % 32) < 1024 :=
    swizzle_lt _ (Nat.mod_lt _ (by norm_num)) _ (Nat.mod_lt _ (by norm_num))
  set s := swizzle (x % 32) (y % 32) with hsdef
  have hv : 1024 * a * (y / 32) + 1024 * (x / 32) + s =
      1024 * (a * (y / 32) + x / 32) + s := by ring
  have hmod : (1024 * a * (y / 32) + 1024 * (x / 32) + s) % 1024 = s := by
    rw [hv, Nat.mul_add_mod, Nat.mod_eq_of_lt hs]
  have hdiv : (1024 * a * (y / 32) + 1024 * (x / 32) + s) / 1024 =
      a * (y / 32) + x / 32 := by
    rw [hv, Nat.mul_add_div (by norm_num), Nat.div_eq_of_lt hs, Nat.add_zero]
  have hxt' : (1024 * a * (y / 32) + 1024 * (x / 32) + s) / 1024 % a = x / 32 := by
    rw [hdiv, Nat.mul_add_mod, Nat.mod_eq_of_lt hxt]
  have hyt : (1024 * a * (y / 32) + 1024 * (x / 32) + s) / (1024 * a) = y / 32 := by
    rw [← Nat.div_div_eq_div_mul, hdiv, Nat.mul_add_div ha,
      Nat.div_eq_of_lt hxt, Nat.add_zero]
  rw [tileInvIndex, hmod, hxt', hyt,
    swizzleInv_swizzle _ (Nat.mod_lt _ (by norm_num)) _ (Nat.mod_lt _ (by norm_num))]
  have h32y : 32 * (y / 32) + y % 32 = y := by omega
  have h32x : 32 * (x / 32) + x % 32 = x := by omega
  rw [h32y, h32x, hy, hx, Nat.mul_comm (i / (32 * a)) (32 * a), Nat.div_add_mod]

theorem tileInv_right (a b v : Nat) (ha : 0 < a) (hv : v < 32 * a * (32 * b)) :
    tileInvIndex a v < 32 * a * (32 * b) ∧
      Part001.xeFbConvert (32 * a) (tileInvIndex a v * 4) = v := by
  have hW : 0 < 32 * a := by omega
  obtain ⟨hsw, hxl, hyl⟩ := swizzle_swizzleInv (v % 1024) (Nat.mod_lt _ (by norm_num))
  set xl := (swizzleInv (v % 1024)).1 with hxldef
  set yl := (swizzleInv (v % 1024)).2 with hyldef
  set xt := v / 1024 % a with hxtdef
  set yt := v / (1024 * a) with hytdef
  have hxt : xt < a := Nat.mod_lt _ ha
  have hyt : yt < b := by
    rw [hytdef]
    rw [Nat.div_lt_iff_lt_mul (by omega)]
    calc v < 32 * a * (32 * b) := hv
      _ = b * (1024 * a) := by ring
  have hx' : 32 * xt + xl < 32 * a := by omega
  have hy' : 32 * yt + yl < 32 * b := by omega
  have hinv : tileInvIndex a v = (32 * yt + yl) * (32 * a) + (32 * xt + xl) := rfl
  constructor
  · rw [hinv]
    calc (32 * yt + yl) * (32 * a) + (32 * xt + xl)
        < (32 * yt + yl) * (32 * a) + 32 * a := by omega
      _ = (32 * yt + yl + 1) * (32 * a) := by ring
      _ ≤ 32 * b * (32 * a) := Nat.mul_le_mul_right _ (by omega)
      _ = 32 * a * (32 * b) := by ring
  · rw [hinv, xeFbConvert_decomp a _ _ hx']
    have e1 : (32 * xt + xl) / 32 = xt := by omega
    have e2 : (32 * xt + xl) % 32 = xl := by omega
    have e3 : (32 * yt + yl) / 32 = yt := by omega
    have e4 : (32 * yt + yl) % 32 = yl := by omega
    rw [e1, e2, e3, e4, hsw]
    have e5 : v / 1024 = a * yt + xt := by
      rw [hytdef, ← Nat.div_div_eq_div_mul]
      exact (Nat.div_add_mod (v / 1024) a).symm
    have e6 : 1024 * (v / 1024) + v % 1024 = v := Nat.div_add_mod v 1024
    calc 1024 * a * yt + 1024 * xt + v % 1024
        = 1024 * (a * yt + xt) + v % 1024 := by ring
      _ = 1024 * (v / 1024) + v % 1024 := by rw [e5]
      _ = v := e6

/-- C1: for every paddedWidth that is a multiple of 32 and every paddedHeight
that is a multiple of 32, the address translator restricted to pixel indices
(the map sending linear pixel index i to the tiled pixel index computed by
the shader's xeFbConvert at byte address i * 4) is a bijection from
the range of pixel indices below paddedWidth * paddedHeight onto that same
range: every tiled index is produced exactly once. -/
theorem addressTranslator_bijection (paddedWidth paddedHeight : Nat)
    (hW : 32 ∣ paddedWidth) (hH : 32 ∣ paddedHeight) :
    Set.BijOn (fun i => Part001.xeFbConvert paddedWidth (i * 4))
      (Set.Ico 0 (paddedWidth * paddedHeight))
      (Set.Ico 0 (paddedWidth * paddedHeight)) := by
  obtain ⟨a, rfl⟩ := hW
  obtain ⟨b, rfl⟩ := hH
  rcases Nat.eq_zero_or_pos a with rfl | ha
  · rw [show 32 * 0 * (32 * b) = 0 by ring, Set.Ico_self]
    exact Set.bijOn_empty _
  have hWpos : 0 < 32 * a := by omega
  have hmaps : ∀ i, i < 32 * a * (32 * b) →
      Part001.xeFbConvert (32 * a) (i * 4) < 32 * a * (32 * b) := by
    intro i hi
    rw [xeFbConvert_pixel a i ha]
    have hmod : i % (32 * a) < 32 * a := Nat.mod_lt _ hWpos
    have hxt : i % (32 * a) / 32 < a :=
      (Nat.div_lt_iff_lt_mul (by norm_num)).2 (by omega)
    have hyt : i / (32 * a) / 32 < b := by
      rw [Nat.div_lt_iff_lt_mul (by norm_num), Nat.div_lt_iff_lt_mul hWpos]
      calc i < 32 * a * (32 * b) := hi
        _ = b * 32 * (32 * a) := by ring
    have hs : swizzle (i % (32 * a) % 32) (i / (32 * a) % 32) < 1024 :=
      swizzle_lt _ (Nat.mod_lt _ (by norm_num)) _ (Nat.mod_lt _ (by norm_num))
    calc 1024 * a * (i / (32 * a) / 32) + 1024 * (i % (32 * a) / 32) +
          swizzle (i % (32 * a) % 32) (i / (32 * a) % 32)
        < 1024 * a * (i / (32 * a) / 32) + 1024 * a := by omega
      _ = 1024 * a * (i / (32 * a) / 32 + 1) := by ring
      _ ≤ 1024 * a * b := Nat.mul_le_mul_left _ (by omega)
      _ = 32 * a * (32 * b) := by ring
  refine ⟨?_, ?_, ?_⟩
  · intro i hi
    simp only [Set.mem_Ico] at hi ⊢
    exact ⟨Nat.zero_le _, hmaps i hi.2⟩
  · intro i hi j hj hf
    simp only [Set.mem_Ico] at hi hj
    replace hf : Part001.xeFbConvert (32 * a) (i * 4) =
        Part001.xeFbConvert (32 * a) (j * 4) := hf
    have h1 := tileInv_left a i ha
    have h2 := tileInv_left a j ha
    rw [← h1, ← h2, hf]
  · intro v hv
    simp only [Set.mem_Ico] at hv
    obtain ⟨hmem, heq⟩ := tileInv_right a b v ha hv.2
    exact ⟨tileInvIndex a v, Set.mem_Ico.2 ⟨Nat.zero_le _, hmem⟩, heq⟩

/-- Witness for C1 at the concrete 32 x 32 instance. -/
theorem addressTranslator_bijection_witness :
    (32 ∣ 32) ∧ Set.BijOn (fun i => Part001.xeFbConvert 32 (i * 4))
      (Set.Ico 0 (32 * 32)) (Set.Ico 0 (32 * 32)) :=
  ⟨⟨1, rfl⟩, addressTranslator_bijection 32 32 ⟨1, rfl⟩ ⟨1, rfl⟩⟩

theorem std_addr_div4 (resWidth x y : Nat) :
    MainCpp.XE_PIXEL_TO_STD_ADDR resWidth x y / 4 = y * resWidth + x := by
  simp [MainCpp.XE_PIXEL_TO_STD_ADDR, Nat.mul_div_cancel _ (by norm_num : 0 < 4)]

theorem inner_fold_at (fb : Nat → Nat) (resWidth yy : Nat) :
    ∀ (n : Nat) (buf : Nat → Nat) (x : Nat), x < n →
      ((List.range n).foldl (fun outBuf xx =>
          Function.update outBuf (yy * resWidth + xx) (MainCpp.cpuPixel fb resWidth xx yy))
        buf) (yy * resWidth + x) = MainCpp.cpuPixel fb resWidth x yy := by
  intro n
  induction n with
  | zero => intro buf x h; omega
  | succ n ih =>
    intro buf x h
    rw [List.range_succ, List.foldl_append, List.foldl_cons, List.foldl_nil]
    rcases Nat.lt_or_ge x n with hx | hx
    · rw [Function.update_noteq (by omega)]
      exact ih buf x hx
    · have hxn : x = n := by omega
      subst hxn
      rw [Function.update_same]

theorem inner_fold_ne (fb : Nat → Nat) (resWidth yy : Nat) :
    ∀ (n : Nat) (buf : Nat → Nat) (j : Nat), (∀ k, k < n → yy * resWidth + k ≠ j) →
      ((List.range n).foldl (fun outBuf xx =>
          Function.update outBuf (yy * resWidth + xx) (MainCpp.cpuPixel fb resWidth xx yy))
        buf) j = buf j := by
  intro n
  induction n with
  | zero => intro buf j h; rfl
  | succ n ih =>
    intro buf j h
    rw [List.range_succ, List.foldl_append, List.foldl_cons, List.foldl_nil]
    rw [Function.update_noteq (fun hEq => h n (by omega) hEq.symm)]
    exact ih buf j fun k hk => h k (by omega)

theorem outer_fold_at (fb : Nat → Nat) (resWidth x y : Nat) (hx : x < resWidth) :
    ∀ (resHeight : Nat) (buf : Nat → Nat), y < resHeight →
      ((List.range resHeight).foldl (fun outBuf yy =>
          (List.range resWidth).foldl (fun outBuf xx =>
            Function.update outBuf (yy * resWidth + xx) (MainCpp.cpuPixel fb resWidth xx yy))
            outBuf) buf) (y * resWidth + x) = MainCpp.cpuPixel fb resWidth x y := by
  intro resHeight
  induction resHeight with
  | zero => intro buf h; omega
  | succ H ih =>
    intro buf hyH
    rw [List.range_succ, List.foldl_append, List.foldl_cons, List.foldl_nil]
    rcases Nat.lt_or_ge y H with hy' | hy'
    · have hmiss : ∀ k, k < resWidth → H * resWidth + k ≠ y * resWidth + x := by
        intro k hk hEq
        have h1 : (y + 1) * resWidth ≤ H * resWidth :=
          Nat.mul_le_mul_right _ (by omega)
        have h2 : (y + 1) * resWidth = y * resWidth + resWidth := by ring
        omega
      rw [inner_fold_ne fb resWidth H resWidth _ _ hmiss]
      exact ih buf hy'
    · have hyH' : y = H := by omega
      subst hyH'
      exact inner_fold_at fb resWidth y resWidth _ x hx

theorem convertCPU_apply (outputBuffer fb : Nat → Nat) (resWidth resHeight x y : Nat)
    (hx : x < resWidth) (hy : y < resHeight) :
    MainCpp.ConvertFramebufferCPU outputBuffer fb resWidth resHeight (y * resWidth + x) =
      MainCpp.cpuPixel fb resWidth x y := by
  have hb : MainCpp.ConvertFramebufferCPU outputBuffer fb resWidth resHeight =
      (List.range resHeight).foldl (fun outBuf yy =>
        (List.range resWidth).foldl (fun outBuf xx =>
          Function.update outBuf (yy * resWidth + xx) (MainCpp.cpuPixel fb resWidth xx yy))
          outBuf) outputBuffer := by
    simp only [MainCpp.ConvertFramebufferCPU, MainCpp.cpuPixel, std_addr_div4]
  rw [hb]
  exact outer_fold_at fb resWidth x y hx resHeight outputBuffer hy

theorem convertCPU_congr (outputBuffer fb fb' : Nat → Nat) (resWidth resHeight : Nat)
    (h : ∀ j, j % 4 ≠ 3 → fb j = fb' j) :
    MainCpp.ConvertFramebufferCPU outputBuffer fb resWidth resHeight =
      MainCpp.ConvertFramebufferCPU outputBuffer fb' resWidth resHeight := by
  have hxe : ∀ x y : Nat, MainCpp.XE_PIXEL_TO_XE_ADDR resWidth x y % 4 = 0 := by
    intro x y
    simp only [MainCpp.XE_PIXEL_TO_XE_ADDR, MainCpp.xeFbConvert]
    exact Nat.mul_mod_left _ 4
  have h0 : ∀ x y : Nat, fb (MainCpp.XE_PIXEL_TO_XE_ADDR resWidth x y) =
      fb' (MainCpp.XE_PIXEL_TO_XE_ADDR resWidth x y) :=
    fun x y => h _ (by have := hxe x y; omega)
  have h1 : ∀ x y : Nat, fb (MainCpp.XE_PIXEL_TO_XE_ADDR resWidth x y + 1) =
      fb' (MainCpp.XE_PIXEL_TO_XE_ADDR resWidth x y + 1) :=
    fun x y => h _ (by have := hxe x y; omega)
  have h2 : ∀ x y : Nat, fb (MainCpp.XE_PIXEL_TO_XE_ADDR resWidth x y + 2) =
      fb' (MainCpp.XE_PIXEL_TO_XE_ADDR resWidth x y + 2) :=
    fun x y => h _ (by have := hxe x y; omega)
  simp only [MainCpp.ConvertFramebufferCPU, h0, h1, h2]

theorem lor_eq_add (k a b : Nat) (ha : 2 ^ k ∣ a) (hb : b < 2 ^ k) : a ||| b = a + b := by
  obtain ⟨c, rfl⟩ := ha
  have hz : 0 < 2 ^ k := Nat.two_pow_pos k
  have hmul : ∀ i, (2 ^ k * c).testBit i =
      if i < k then false else c.testBit (i - k) := by
    intro i
    have h0 := Nat.testBit_mul_pow_two_add c hz i
    simpa using h0
  have hsum : ∀ i, (2 ^ k * c + b).testBit i =
      if i < k then b.testBit i else c.testBit (i - k) :=
    fun i => Nat.testBit_mul_pow_two_add c hb i
  apply Nat.eq_of_testBit_eq
  intro i
  rw [Nat.testBit_lor, hmul i, hsum i]
  by_cases h : i < k
  · rw [if_pos h, if_pos h, Bool.false_or]
  · rw [if_neg h, if_neg h]
    have hbf : b.testBit i = false :=
      Nat.testBit_lt_two_pow
        (lt_of_lt_of_le hb (Nat.pow_le_pow_right (by norm_num) (by omega)))
    rw [hbf, Bool.or_false]

theorem COLOR_eq_add (r g b a : Nat) (hg : g < 256) (hr : r < 256) (ha : a < 256) :
    MainCpp.COLOR r g b a = b * 16777216 + g * 65536 + r * 256 + a := by
  have e1 : b * 16777216 ||| g * 65536 = b * 16777216 + g * 65536 :=
    lor_eq_add 24 _ _ ⟨b, by ring⟩ (show g * 65536 < 2 ^ 24 by norm_num; omega)
  have e2 : b * 16777216 + g * 65536 ||| r * 256 =
      b * 16777216 + g * 65536 + r * 256 :=
    lor_eq_add 16 _ _ ⟨b * 256 + g, by ring⟩
      (show r * 256 < 2 ^ 16 by norm_num; omega)
  have e3 : b * 16777216 + g * 65536 + r * 256 ||| a =
      b * 16777216 + g * 65536 + r * 256 + a :=
    lor_eq_add 8 _ _ ⟨b * 65536 + g * 256 + r, by ring⟩
      (show a < 2 ^ 8 by norm_num; omega)
  simp only [MainCpp.COLOR, Nat.shiftLeft_eq]
  norm_num
  rw [e1, e2, e3]

theorem mapToSource_id (internalWidth internalHeight resWidth resHeight x y : Nat)
    (hW : resWidth = TILE internalWidth) (hH : resHeight = TILE internalHeight)
    (hx : x < resWidth) (hy : y < resHeight) :
    Part001.mapToSource internalWidth internalHeight resWidth resHeight x y = (x, y) := by
  subst hW
  subst hH
  have hW0 : (TILE internalWidth : ℚ) ≠ 0 := Nat.cast_ne_zero.2 (by omega)
  have hH0 : (TILE internalHeight : ℚ) ≠ 0 := Nat.cast_ne_zero.2 (by omega)
  simp only [Part001.mapToSource, Part001.scaleX, Part001.scaleY]
  rw [div_self hW0, div_self hH0, mul_one, mul_one, Nat.floor_natCast, Nat.floor_natCast]

theorem shaderMain_eq (pixel_data : Nat → Nat)
    (internalWidth internalHeight resWidth resHeight x y : Nat)
    (hW : resWidth = TILE internalWidth) (hH : resHeight = TILE internalHeight)
    (hx : x < resWidth) (hy : y < resHeight) :
    Part001.shaderMain pixel_data internalWidth internalHeight resWidth resHeight x y =
      some (pixel_data (Part001.xeFbConvert resWidth ((y * resWidth + x) * 4))) := by
  have hcond : ¬(x ≥ resWidth ∨ y ≥ resHeight) := by omega
  simp only [Part001.shaderMain]
  rw [if_neg hcond,
    mapToSource_id internalWidth internalHeight resWidth resHeight x y hW hH hx hy, ← hW]

/-- C10: for every width and byte address, the CPU address translator of
src/main.cpp returns exactly 4 times the value of the GPU shader's
xeFbConvert of src/unnamed/part_001 at the same arguments: both compute the
same tiled pixel index, the CPU variant converting it to a byte offset. -/
theorem cpu_gpu_xeFbConvert_factor (width addr : Nat) :
    MainCpp.xeFbConvert width addr = 4 * Part001.xeFbConvert width addr :=
  xeFbConvert_cpu_eq_four_mul width addr

/-- C3: when the (padded) output resolution equals the padded internal
resolution, the resampling map returns exactly the destination coordinate,
for every valid coordinate: the mapping is the identity. -/
theorem resampler_identity (internalWidth internalHeight resWidth resHeight x y : Nat)
    (hW : resWidth = TILE internalWidth) (hH : resHeight = TILE internalHeight)
    (hx : x < resWidth) (hy : y < resHeight) :
    Part001.mapToSource internalWidth internalHeight resWidth resHeight x y = (x, y) :=
  mapToSource_id internalWidth internalHeight resWidth resHeight x y hW hH hx hy

/-- Witness for C3 at the program's own resolutions and texel (5, 7). -/
theorem resampler_identity_witness :
    (1280 = TILE 1280) ∧ (736 = TILE 720) ∧ (5 < 1280) ∧ (7 < 736) ∧
      Part001.mapToSource 1280 720 1280 736 5 7 = (5, 7) :=
  ⟨by decide, by decide, by decide, by decide,
    resampler_identity 1280 720 1280 736 5 7 (by decide) (by decide)
      (by decide) (by decide)⟩

/-- C2: with identical (padded) internal and output resolutions, the GPU
kernel and the sequential CPU converter agree at every destination
coordinate modulo the documented channel-order difference: applying
reorderChannels (the fixed repack the CPU path performs relative to the
verbatim GPU word) to the GPU output gives exactly the CPU output. -/
theorem cpu_gpu_equivalence (outputBuffer fb : Nat → Nat)
    (internalWidth internalHeight resWidth resHeight x y : Nat)
    (hbytes : ∀ j, fb j < 256)
    (hW : resWidth = TILE internalWidth) (hH : resHeight = TILE internalHeight)
    (hx : x < resWidth) (hy : y < resHeight) :
    Option.map reorderChannels
        (Part001.shaderMain (word32 fb) internalWidth internalHeight resWidth resHeight x y) =
      some (MainCpp.ConvertFramebufferCPU outputBuffer fb resWidth resHeight
        (y * resWidth + x)) := by
  rw [shaderMain_eq (word32 fb) internalWidth internalHeight resWidth resHeight x y
    hW hH hx hy, Option.map_some',
    convertCPU_apply outputBuffer fb resWidth resHeight x y hx hy]
  set p := Part001.xeFbConvert resWidth ((y * resWidth + x) * 4) with hp
  have hxe : MainCpp.XE_PIXEL_TO_XE_ADDR resWidth x y = 4 * p := by
    rw [MainCpp.XE_PIXEL_TO_XE_ADDR, MainCpp.XE_PIXEL_TO_STD_ADDR,
      xeFbConvert_cpu_eq_four_mul]
  simp only [MainCpp.cpuPixel, hxe, word32, reorderChannels]
  rw [COLOR_eq_add _ _ _ _ (hbytes _) (hbytes _) (by norm_num)]
  have b0 := hbytes (4 * p)
  have b1 := hbytes (4 * p + 1)
  have b2 := hbytes (4 * p + 2)
  have b3 := hbytes (4 * p + 3)
  norm_num
  omega

/-- Witness for C2 at the program's own resolutions, an all-zero
framebuffer, and texel (0, 0). -/
theorem cpu_gpu_equivalence_witness :
    (1280 = TILE 1280) ∧ (736 = TILE 720) ∧
      Option.map reorderChannels
          (Part001.shaderMain (word32 fun _ => 0) 1280 720 1280 736 0 0) =
        some (MainCpp.ConvertFramebufferCPU (fun _ => 0) (fun _ => 0) 1280 736
          (0 * 1280 + 0)) :=
  ⟨by decide, by decide,
    cpu_gpu_equivalence (fun _ => 0) (fun _ => 0) 1280 720 1280 736 0 0
      (fun _ => by norm_num) (by decide) (by decide) (by decide) (by decide)⟩

/-- C9: for every framebuffer (of byte values) and every destination pixel,
the CPU converter writes an output word whose alpha channel (the low byte
under the main.cpp COLOR packing) is the constant 255; moreover the output
is insensitive to the alpha bytes of the tiled source buffer (the bytes at
offsets congruent to 3 mod 4), so the alpha byte read at the translated
address + 3 is discarded. -/
theorem cpu_alpha_forced (outputBuffer fb : Nat → Nat) (resWidth resHeight x y : Nat)
    (hbytes : ∀ j, fb j < 256) (hx : x < resWidth) (hy : y < resHeight) :
    MainCpp.ConvertFramebufferCPU outputBuffer fb resWidth resHeight
        (y * resWidth + x) % 256 = 255 ∧
      ∀ fb' : Nat → Nat, (∀ j, j % 4 ≠ 3 → fb j = fb' j) →
        MainCpp.ConvertFramebufferCPU outputBuffer fb resWidth resHeight =
          MainCpp.ConvertFramebufferCPU outputBuffer fb' resWidth resHeight := by
  constructor
  · rw [convertCPU_apply outputBuffer fb resWidth resHeight x y hx hy]
    simp only [MainCpp.cpuPixel]
    rw [COLOR_eq_add _ _ _ _ (hbytes _) (hbytes _) (by norm_num)]
    omega
  · intro fb' hagree
    exact convertCPU_congr outputBuffer fb fb' resWidth resHeight hagree

/-- Witness for C9 with an all-zero framebuffer at texel (0, 0) of a 1 x 1
conversion. -/
theorem cpu_alpha_forced_witness :
    (∀ j : Nat, (fun _ => 0 : Nat → Nat) j < 256) ∧
      (MainCpp.ConvertFramebufferCPU (fun _ => 0) (fun _ => 0) 1 1
          (0 * 1 + 0) % 256 = 255 ∧
        ∀ fb' : Nat → Nat, (∀ j, j % 4 ≠ 3 → (fun _ => 0 : Nat → Nat) j = fb' j) →
          MainCpp.ConvertFramebufferCPU (fun _ => 0) (fun _ => 0) 1 1 =
            MainCpp.ConvertFramebufferCPU (fun _ => 0) fb' 1 1) :=
  ⟨fun _ => by norm_num,
    cpu_alpha_forced (fun _ => 0) (fun _ => 0) 1 1 0 0 (fun _ => by norm_num)
      (by decide) (by decide)⟩

/-- C5: a kernel invocation whose destination texel lies at or beyond the
padded output extent performs no mapping (the shader returns before reading
or translating anything, modelled as none) and leaves the output image
unchanged at that texel; no error is signalled. -/
theorem oob_texel_unwritten (pixel_data : Nat → Nat)
    (internalWidth internalHeight resWidth resHeight x y : Nat)
    (image : Nat × Nat → Nat) (h : resWidth ≤ x ∨ resHeight ≤ y) :
    Part001.shaderMain pixel_data internalWidth internalHeight resWidth resHeight x y =
        none ∧
      Part001.storeTexel image (x, y)
          (Part001.shaderMain pixel_data internalWidth internalHeight resWidth resHeight x y) =
        image := by
  have h1 : Part001.shaderMain pixel_data internalWidth internalHeight
      resWidth resHeight x y = none := by
    simp only [Part001.shaderMain]
    rw [if_pos h]
  exact ⟨h1, by rw [h1]; rfl⟩

/-- Witness for C5 at the program's own padded resolutions and the
out-of-bounds texel (1280, 0). -/
theorem oob_texel_unwritten_witness :
    (1280 ≤ 1280 ∨ 736 ≤ 0) ∧
      (Part001.shaderMain (fun _ => 0) 1280 720 1280 736 1280 0 = none ∧
        Part001.storeTexel (fun _ => 0) (1280, 0)
            (Part001.shaderMain (fun _ => 0) 1280 720 1280 736 1280 0) =
          fun _ => 0) :=
  ⟨Or.inl (by decide),
    oob_texel_unwritten (fun _ => 0) 1280 720 1280 736 1280 0 (fun _ => 0)
      (Or.inl (by decide))⟩

/-- C6: worked example at paddedWidth = 1280.  Byte address 0 (pixel (0,0))
is translated to tiled pixel index 0, and byte address 128 (pixel (32,0))
to tiled pixel index 1024; at (x,y) = (32,0) the macro-tile part of the
translator contributes (0/32*32)*1280 + (32/32*32)*32 = 1024 and the
swizzled within-tile part contributes swizzle 32 0 = 0. -/
theorem worked_example :
    Part001.xeFbConvert 1280 0 = 0 ∧ Part001.xeFbConvert 1280 128 = 1024 ∧
      (0 / 32 * 32) * 1280 + (32 / 32 * 32) * 32 = 1024 ∧ swizzle 32 0 = 0 := by
  decide

/-- C8: the padding function: TILE n is a multiple of 32, is at least n, and
is below any other multiple of 32 that is at least n — it is the least
multiple of the tiling granularity 32 that is greater than or equal to n;
it is idempotent; and both programs pad their resolutions with it: the
global output resolutions are TILE 1280 and TILE 720, and part_001's shader
applies TILE to the internal resolution (tiledWidth = TILE internalWidth,
see the definitions of scaleX, scaleY and shaderMain) before any address or
scale computation. -/
theorem tile_padding_least_multiple :
    (∀ n : Nat, 32 ∣ TILE n ∧ n ≤ TILE n ∧
      ∀ m : Nat, 32 ∣ m → n ≤ m → TILE n ≤ m) ∧
      (∀ n : Nat, TILE (TILE n) = TILE n) ∧
      MainCpp.resWidth = TILE 1280 ∧ MainCpp.resHeight = TILE 720 ∧
      Part001.resWidth = TILE Part001.internalWidth ∧
      Part001.resHeight = TILE Part001.internalHeight := by
  refine ⟨?_, ?_, rfl, rfl, rfl, rfl⟩
  · intro n
    refine ⟨⟨(n + 31) / 32, by rw [TILE_eq]; ring⟩, ?_, ?_⟩
    · rw [TILE_eq]; omega
    · intro m hm hnm
      obtain ⟨c, rfl⟩ := hm
      rw [TILE_eq]; omega
  · intro n
    rw [TILE_eq n, TILE_eq]
    omega

/-- Witness for C8: the minimality conjunct applied at n = 33, m = 64. -/
theorem tile_padding_least_multiple_witness :
    (32 ∣ 64) ∧ (33 ≤ 64) ∧ TILE 33 ≤ 64 :=
  ⟨by decide, by decide,
    (tile_padding_least_multiple.1 33).2.2 64 (by decide) (by decide)⟩

/-- C4: downsample scenario.  With padded internal resolution 1280 x 736 and
padded output resolution 640 x 352 the scale factors are exactly 2 and
736/352 (about 2.09), and destination pixel (10, 10) maps to source pixel
(20, 20), since floor(10 * 2) = 20 and floor(10 * 736/352) = floor(20.9...)
= 20. -/
theorem downsample_scenario :
    Part001.scaleX 1280 640 = 2 ∧ Part001.scaleY 736 352 = 736 / 352 ∧
      Part001.mapToSource 1280 736 640 352 10 10 = (20, 20) := by
  refine ⟨?_, ?_, ?_⟩
  · simp only [Part001.scaleX, show TILE 1280 = 1280 from by decide]
    norm_num
  · simp only [Part001.scaleY, show TILE 736 = 736 from by decide]
    norm_num
  · simp only [Part001.mapToSource, Part001.scaleX, Part001.scaleY,
      show TILE 1280 = 1280 from by decide, show TILE 736 = 736 from by decide,
      Prod.mk.injEq]
    constructor
    · rw [show ((10 : ℕ) : ℚ) * (((1280 : ℕ) : ℚ) / ((640 : ℕ) : ℚ)) = 20 by
        push_cast
        norm_num]
      simp
    · rw [show ((10 : ℕ) : ℚ) * (((736 : ℕ) : ℚ) / ((352 : ℕ) : ℚ)) = 230 / 11 by
        push_cast
        norm_num]
      rw [Nat.floor_eq_iff (by norm_num)]
      norm_num

/-- Counterexample to C7: with the dump file missing or empty, the dump
buffer (zero-initialized by its allocation) stays all zeros, and the frame
conversion reads it; at destination texel (0, 0) under the program's own
resolutions the converted value is packed 0, not the dark-grey fill
COLOR(30,30,30,255) the staging pixel array was initialized with — that
fill is overwritten by the upload of the dump buffer before the first
dispatch (src/unnamed/part_001, render passes the dump buffer to the pixel
SSBO each frame). -/
theorem truncated_input_counterexample :
    Part001.shaderMain (word32 fun _ => 0) Part001.internalWidth Part001.internalHeight
        Part001.resWidth Part001.resHeight 0 0 ≠
      some (Part001.COLOR 30 30 30 255) := by
  rw [shaderMain_eq (word32 fun _ => 0) Part001.internalWidth Part001.internalHeight
    Part001.resWidth Part001.resHeight 0 0 rfl rfl (by decide) (by decide)]
  simp only [word32]
  norm_num
  decide

/-- C7 as amended: when the dump file is missing or of zero length the dump
buffer is all zeros, processing continues, and every in-range destination
texel receives the packed value 0 read from that zero buffer (not the
dark-grey fill of the staging pixel array, which is overwritten before the
first conversion). -/
theorem truncated_input_amended (fb : Nat → Nat) (hfb : ∀ j, fb j = 0)
    (internalWidth internalHeight resWidth resHeight x y : Nat)
    (hx : x < resWidth) (hy : y < resHeight) :
    Part001.shaderMain (word32 fb) internalWidth internalHeight resWidth resHeight x y =
      some 0 := by
  have hcond : ¬(x ≥ resWidth ∨ y ≥ resHeight) := by omega
  simp only [Part001.shaderMain]
  rw [if_neg hcond]
  simp [word32, hfb]

/-- Witness for the amended C7 at the program's own resolutions and texel
(3, 4). -/
theorem truncated_input_amended_witness :
    (∀ j : Nat, (fun _ => 0 : Nat → Nat) j = 0) ∧ (3 < 1280) ∧ (4 < 736) ∧
      Part001.shaderMain (word32 fun _ => 0) 1280 720 1280 736 3 4 = some 0 :=
  ⟨fun _ => rfl, by decide, by decide,
    truncated_input_amended (fun _ => 0) (fun _ => rfl) 1280 720 1280 736 3 4
      (by decide) (by decide)⟩
